import Mathlib

/-
Verification development for the signal-processing core of the repository
(src/app/core/dataprocessor.py, class Processor).

The embedding models machine floats by exact rationals, pandas columns by
lists, and dicts (which preserve insertion order in Python) by association
lists.  The dB branch, which applies log10, is modelled over the reals with
Real.logb 10.  Python int() truncation toward zero is intTrunc; Python
round(x, 12) / numpy round is modelled by round12 (nearest multiple of
10 ^ -12; tie direction is irrelevant to every statement below).
-/

namespace Signals

/-- A channel: paired time/amplitude columns (pandas columns of the
channel data frame).  The caller guarantees equal lengths. -/
structure Channel where
  time : List ℚ
  amplitude : List ℚ
deriving DecidableEq

/-- A smoothed channel record: the data frame produced by
_precompute_smoothed_data, holding the original columns plus
ABS_Amplitude and Smoothed. -/
structure SmoothedRecord where
  time : List ℚ
  amplitude : List ℚ
  absAmplitude : List ℚ
  smoothed : List ℚ
deriving DecidableEq

/-- Mean of a list (sum divided by length; junk 0 on the empty list,
matching that pandas never evaluates the window mean on an empty window
when min_periods is 1). -/
def listMean (l : List ℚ) : ℚ := l.sum / (l.length : ℚ)

/-- The trailing window of size 15 ending at position j (elements at
indices max 0 (j - 14) .. j), as used by pandas rolling(window=15). -/
def windowEnd (l : List ℚ) (j : ℕ) : List ℚ := (l.take (j + 1)).drop (j + 1 - 15)

/-- pandas rolling(window=15, min_periods=1).mean() over a column:
position j holds the mean of the trailing window ending at j. -/
def rollingMean15 (l : List ℚ) : List ℚ :=
  (List.range l.length).map (fun j => listMean (windowEnd l j))

/-- _precompute_smoothed_data, per channel: copy the frame, add the
absolute-amplitude column, and add the Smoothed column obtained by
reversing the absolute amplitudes, applying the trailing rolling mean of
window 15 (min_periods 1), and reversing back. -/
def smoothChannel (c : Channel) : SmoothedRecord :=
  { time := c.time
    amplitude := c.amplitude
    absAmplitude := c.amplitude.map (fun x => |x|)
    smoothed := (rollingMean15 ((c.amplitude.map (fun x => |x|)).reverse)).reverse }

/-- _precompute_smoothed_data over the whole channel dict (insertion
order preserved). -/
def computeSmoothedData (channels : List (String × Channel)) :
    List (String × SmoothedRecord) :=
  channels.map (fun nc => (nc.1, smoothChannel nc.2))

/-- Maximum of a list of rationals (np.max / pandas max; junk 0 on []). -/
def listMax : List ℚ → ℚ
  | [] => 0
  | x :: xs => xs.foldl max x

/-- Minimum of a list of rationals (np.min; junk 0 on []). -/
def listMin : List ℚ → ℚ
  | [] => 0
  | x :: xs => xs.foldl min x

/-- First index attaining the maximum (np.argmax / pandas idxmax, which
both return the first occurrence). -/
def argmaxFirst (l : List ℚ) : ℕ := l.findIdx (fun x => decide (x = listMax l))

/-- First index attaining the minimum (np.argmin). -/
def argminFirst (l : List ℚ) : ℕ := l.findIdx (fun x => decide (x = listMin l))

/-- Python int() applied to a rational: truncation toward zero. -/
def intTrunc (q : ℚ) : ℤ := if 0 ≤ q then ⌊q⌋ else ⌈q⌉

/-- The parameter dict self.params: the keys read by the processor.
Numeric keys may be absent (params.get with a default);
signal_start_channel is read with direct indexing, so it is kept as a
plain field. -/
structure ParamsDict where
  start_freq : Option ℚ
  end_freq : Option ℚ
  record_time : Option ℚ
  cut_second : Option ℚ
  fixedlevel : Option ℚ
  gain : Option ℚ
  signal_start_channel : String
deriving DecidableEq

/-- The derived scalar attributes set by _update_derived_params. -/
structure Derived where
  start_freq : ℚ
  end_freq : ℚ
  record_time : ℚ
  cut_second : ℚ
  fixedlevel : ℚ
  gain : ℚ
  bandwidth : ℚ
deriving DecidableEq

/-- _update_derived_params: defaults start_freq 1, end_freq 1,
record_time 1, cut_second 0, fixedlevel 0.6, gain 7;
bandwidth = end_freq - start_freq. -/
def derive (p : ParamsDict) : Derived :=
  { start_freq := p.start_freq.getD 1
    end_freq := p.end_freq.getD 1
    record_time := p.record_time.getD 1
    cut_second := p.cut_second.getD 0
    fixedlevel := p.fixedlevel.getD (3 / 5)
    gain := p.gain.getD 7
    bandwidth := p.end_freq.getD 1 - p.start_freq.getD 1 }

/-- An argument to update_params: the subset of keys being overwritten. -/
structure ParamsUpdate where
  start_freq : Option ℚ
  end_freq : Option ℚ
  record_time : Option ℚ
  cut_second : Option ℚ
  fixedlevel : Option ℚ
  gain : Option ℚ
  signal_start_channel : Option String
deriving DecidableEq

/-- dict.update for one optional numeric key: a key present in the update
overwrites, an absent one leaves the previous entry. -/
def overrideQ (q : Option ℚ) (p : Option ℚ) : Option ℚ :=
  match q with
  | some v => some v
  | none => p

/-- self.params.update(new_params). -/
def mergeParams (p : ParamsDict) (q : ParamsUpdate) : ParamsDict :=
  { start_freq := overrideQ q.start_freq p.start_freq
    end_freq := overrideQ q.end_freq p.end_freq
    record_time := overrideQ q.record_time p.record_time
    cut_second := overrideQ q.cut_second p.cut_second
    fixedlevel := overrideQ q.fixedlevel p.fixedlevel
    gain := overrideQ q.gain p.gain
    signal_start_channel :=
      match q.signal_start_channel with
      | some v => v
      | none => p.signal_start_channel }

/-- An update touching only the gain key. -/
def gainOnly (g : ℚ) : ParamsUpdate := ⟨none, none, none, none, none, some g, none⟩

/-- _get_signal_start_index over the smoothed records: locate the first
index of maximal raw amplitude in the reference channel, add the
truncated cut_second offset in samples, clamp to [0, total - 1].
Degraded paths (no channels, unknown reference channel, fewer than two
samples) return 0. -/
def signalStartCore (smoothed : List (String × SmoothedRecord)) (ssc : String)
    (cut_second : ℚ) : ℕ :=
  match smoothed with
  | [] => 0
  | _ :: _ =>
    match smoothed.lookup ssc with
    | none => 0
    | some sc =>
      let total := sc.time.length
      if total < 2 then 0
      else
        let time_step := sc.time.getD 1 0 - sc.time.getD 0 0
        let offset_points : ℤ := if 0 < time_step then intTrunc (cut_second / time_step) else 0
        (max 0 (min ((argmaxFirst sc.amplitude : ℤ) + offset_points) ((total : ℤ) - 1))).toNat

/-- max_possible_points = total_points - signal_start. -/
def maxPossiblePoints (total signal_start : ℕ) : ℤ := (total : ℤ) - (signal_start : ℤ)

/-- requested_points = int(record_time / time_step) if time_step > 0 else 0. -/
def requestedPoints (record_time time_step : ℚ) : ℤ :=
  if 0 < time_step then intTrunc (record_time / time_step) else 0

/-- _get_cropped_indices: the crop start index and the number of points
to crop.  points_to_crop = min(requested, max_possible), replaced by
max_possible when it falls below the 10-point floor.  Degraded paths
return (0, 0). -/
def croppedIndicesCore (smoothed : List (String × SmoothedRecord)) (ssc : String)
    (cut_second record_time : ℚ) : ℕ × ℕ :=
  match smoothed with
  | [] => (0, 0)
  | _ :: _ =>
    match smoothed.lookup ssc with
    | none => (0, 0)
    | some sc =>
      let total := sc.time.length
      if total < 2 then (0, 0)
      else
        let signal_start := signalStartCore smoothed ssc cut_second
        let time_step := sc.time.getD 1 0 - sc.time.getD 0 0
        let points_to_crop : ℤ :=
          min (requestedPoints record_time time_step) (maxPossiblePoints total signal_start)
        let points_final : ℤ :=
          if points_to_crop < 10 then maxPossiblePoints total signal_start else points_to_crop
        (signal_start, points_final.toNat)

/-- data.iloc[s : s + p] on a smoothed record. -/
def sliceRecord (d : SmoothedRecord) (s p : ℕ) : SmoothedRecord :=
  { time := (d.time.drop s).take p
    amplitude := (d.amplitude.drop s).take p
    absAmplitude := (d.absAmplitude.drop s).take p
    smoothed := (d.smoothed.drop s).take p }

/-- _get_cropped_data over the smoothed records: slice every channel to
the crop window. -/
def croppedDataCore (smoothed : List (String × SmoothedRecord)) (ssc : String)
    (cut_second record_time : ℚ) : List (String × SmoothedRecord) :=
  let sp := croppedIndicesCore smoothed ssc cut_second record_time
  smoothed.map (fun nd => (nd.1, sliceRecord nd.2 sp.1 sp.2))

/-- _get_signal_start_index of the processor pipeline. -/
def computeSignalStart (channels : List (String × Channel)) (p : ParamsDict) : ℕ :=
  signalStartCore (computeSmoothedData channels) p.signal_start_channel (derive p).cut_second

/-- _get_cropped_indices of the processor pipeline. -/
def computeCroppedIndices (channels : List (String × Channel)) (p : ParamsDict) : ℕ × ℕ :=
  croppedIndicesCore (computeSmoothedData channels) p.signal_start_channel
    (derive p).cut_second (derive p).record_time

/-- _get_cropped_data of the processor pipeline. -/
def computeCroppedData (channels : List (String × Channel)) (p : ParamsDict) :
    List (String × SmoothedRecord) :=
  croppedDataCore (computeSmoothedData channels) p.signal_start_channel
    (derive p).cut_second (derive p).record_time

/-- The linear branch of the frequency response of one channel. -/
structure FreqChannelLin where
  freq : List ℚ
  amplitude : List ℚ
deriving DecidableEq

/-- The dB branch of the frequency response of one channel. -/
structure FreqChannelDB where
  freq : List ℚ
  db_amplitude : List ℝ

/-- The value cached under the freq_response key: both branches. -/
structure FreqResponseData where
  linear : List (String × FreqChannelLin)
  dB : List (String × FreqChannelDB)

/-- The dB conversion on one sample: 20 * log10 of the smoothed value
(gain not applied). -/
noncomputable def dbOf (x : ℚ) : ℝ := 20 * Real.logb 10 (x : ℝ)

/-- The frequency axis: the first cropped channel's time column, shifted
to start at 0 and mapped by freq = start_freq + (bandwidth / record_time)
* timeshift.  Junk [] when there is no first sample (the source raises
there instead; see freqStageOk). -/
def croppedFreqs (cropped : List (String × SmoothedRecord)) (d : Derived) : List ℚ :=
  match cropped with
  | [] => []
  | (_, first) :: _ =>
    match first.time with
    | [] => []
    | t0 :: _ =>
      first.time.map (fun t => d.start_freq + (d.bandwidth / d.record_time) * (t - t0))

/-- The linear branch built by _get_freq_response_data: per channel, the
shared frequency axis and the cropped smoothed values times gain. -/
def linPart (cropped : List (String × SmoothedRecord)) (d : Derived) :
    List (String × FreqChannelLin) :=
  cropped.map (fun nd =>
    (nd.1, { freq := croppedFreqs cropped d
             amplitude := nd.2.smoothed.map (fun x => x * d.gain) }))

/-- The dB branch built by _get_freq_response_data: per channel, the
shared frequency axis and 20 * log10 of the cropped smoothed values, with
gain not applied. -/
noncomputable def dbPart (cropped : List (String × SmoothedRecord)) (d : Derived) :
    List (String × FreqChannelDB) :=
  cropped.map (fun nd =>
    (nd.1, { freq := croppedFreqs cropped d
             db_amplitude := nd.2.smoothed.map dbOf }))

/-- Whether _get_freq_response_data completes: it indexes the first
cropped channel and its first time sample without a guard, so it needs a
nonempty channel dict and a nonempty crop window; otherwise the source
raises IndexError. -/
def freqStageOk (cropped : List (String × SmoothedRecord)) : Bool :=
  match cropped with
  | [] => false
  | (_, first) :: _ => !first.time.isEmpty

/-- _get_freq_response_data: none models the uncaught IndexError raised
on an empty crop window (or empty channel dict). -/
noncomputable def computeFreqResponseData (channels : List (String × Channel))
    (p : ParamsDict) : Option FreqResponseData :=
  let cropped := computeCroppedData channels p
  if freqStageOk cropped then
    some { linear := linPart cropped (derive p), dB := dbPart cropped (derive p) }
  else none

/-- The linear branch of the pipeline frequency response (total
function; meaningful whenever the stage completes). -/
def computeFreqLinear (channels : List (String × Channel)) (p : ParamsDict) :
    List (String × FreqChannelLin) :=
  linPart (computeCroppedData channels p) (derive p)

/-- One channel's entry of _get_channel_parameters. -/
structure ChannelParams where
  max_amplitude : ℚ
  resonance_frequency : ℚ
  bandwidth_707 : ℚ
  bandwidth_707_range : ℚ × ℚ
  bandwidth_fixed : ℚ
  bandwidth_fixed_range : ℚ × ℚ
  q_factor : ℚ
deriving DecidableEq

/-- np.where(mask)[0][-1]: the last index of the list satisfying the
predicate (meaningful when some element satisfies it). -/
def lastIdxWhere (pb : ℚ → Bool) (l : List ℚ) : ℕ :=
  l.length - 1 - l.reverse.findIdx pb

/-- The body of the _get_channel_parameters loop for one channel of the
linear response: peak amplitude and its first index, resonance frequency,
half-power band (first/last index at or above max_amp * 0.707),
fixed-level band (first/last index at or above fixedlevel), Q-factor, and
the doubled max_amplitude reported to callers. -/
def extractParams (fixedlevel : ℚ) (data : FreqChannelLin) : ChannelParams :=
  let amplitude := data.amplitude
  let freq := data.freq
  let max_amp := listMax amplitude
  let max_amp_idx := argmaxFirst amplitude
  let resonance_freq := freq.getD max_amp_idx 0
  let half_power_level := max_amp * (707 / 1000)
  let bw707 : ℚ × (ℚ × ℚ) :=
    if amplitude.any (fun a => decide (half_power_level ≤ a)) then
      let low_idx := amplitude.findIdx (fun a => decide (half_power_level ≤ a))
      let high_idx := lastIdxWhere (fun a => decide (half_power_level ≤ a)) amplitude
      (freq.getD high_idx 0 - freq.getD low_idx 0, (freq.getD low_idx 0, freq.getD high_idx 0))
    else (0, (0, 0))
  let bwFixed : ℚ × (ℚ × ℚ) :=
    if amplitude.any (fun a => decide (fixedlevel ≤ a)) then
      let low_idx := amplitude.findIdx (fun a => decide (fixedlevel ≤ a))
      let high_idx := lastIdxWhere (fun a => decide (fixedlevel ≤ a)) amplitude
      (freq.getD high_idx 0 - freq.getD low_idx 0, (freq.getD low_idx 0, freq.getD high_idx 0))
    else (0, (0, 0))
  { max_amplitude := max_amp * 2
    resonance_frequency := resonance_freq
    bandwidth_707 := bw707.1
    bandwidth_707_range := bw707.2
    bandwidth_fixed := bwFixed.1
    bandwidth_fixed_range := bwFixed.2
    q_factor := if 0 < bw707.1 then resonance_freq / bw707.1 else 0 }

/-- The _get_channel_parameters loop over the linear response. -/
def channelParamsOfLinear (fixedlevel : ℚ) (lin : List (String × FreqChannelLin)) :
    List (String × ChannelParams) :=
  lin.map (fun nd => (nd.1, extractParams fixedlevel nd.2))

/-- _get_channel_parameters: none when the frequency stage raises. -/
def computeChannelParameters (channels : List (String × Channel)) (p : ParamsDict) :
    Option (List (String × ChannelParams)) :=
  if freqStageOk (computeCroppedData channels p) then
    some (channelParamsOfLinear (derive p).fixedlevel (computeFreqLinear channels p))
  else none

/-- One channel's entry of _precompute_raw_extremums. -/
structure Extremum where
  max_amp : ℚ
  min_amp : ℚ
  maxamp_idx : ℕ
  minamp_idx : ℕ
deriving DecidableEq

/-- _precompute_raw_extremums over the raw channel data. -/
def computeRawExtremums (channels : List (String × Channel)) :
    List (String × Extremum) :=
  channels.map (fun nc =>
    (nc.1, { max_amp := listMax nc.2.amplitude
             min_amp := listMin nc.2.amplitude
             maxamp_idx := argmaxFirst nc.2.amplitude
             minamp_idx := argminFirst nc.2.amplitude }))

/-- self._cache: the three parameter-dependent entries (the only keys the
source ever stores there). -/
structure Cache where
  cropped_data : Option (List (String × SmoothedRecord))
  freq_response : Option FreqResponseData
  channel_parameters : Option (List (String × ChannelParams))

/-- The empty cache (state right after construction or invalidation). -/
def Cache.empty : Cache := ⟨none, none, none⟩

/-- self._precomputed: the parameter-independent entries (the raw_data
entry holds the per-channel copy of the original frames made on the
first raw_data read). -/
structure Precomputed where
  raw_extremums : Option (List (String × Extremum))
  smoothed_data : Option (List (String × SmoothedRecord))
  raw_data : Option (List (String × Channel))

/-- The empty precomputed store. -/
def Precomputed.empty : Precomputed := ⟨none, none, none⟩

/-- The Processor object: channel dict, parameter dict, the two caches. -/
structure Processor where
  channels : List (String × Channel)
  params : ParamsDict
  cache : Cache
  precomputed : Precomputed

/-- update_params: merge the new keys into the parameter dict, recompute
the derived scalars, and delete the cropped_data, freq_response and
channel_parameters cache entries. -/
def updateParams (P : Processor) (q : ParamsUpdate) : Processor :=
  { P with params := mergeParams P.params q, cache := Cache.empty }

/-- set_signal_start_channel: if the name is a key of the channel dict,
set the parameter and delete the three parameter-dependent cache entries;
otherwise do nothing at all. -/
def setSignalStartChannel (P : Processor) (name : String) : Processor :=
  if (P.channels.lookup name).isSome then
    { P with params := { P.params with signal_start_channel := name }, cache := Cache.empty }
  else P

/-- The value the smoothed_data accessor sees: the memoized entry, else a
fresh computation (the two always agree on any reachable state). -/
def smoothedDataValue (P : Processor) : List (String × SmoothedRecord) :=
  P.precomputed.smoothed_data.getD (computeSmoothedData P.channels)

/-- The value the extremum accessors see. -/
def rawExtremumsValue (P : Processor) : List (String × Extremum) :=
  P.precomputed.raw_extremums.getD (computeRawExtremums P.channels)

/-- The value read through the cropped_data cache. -/
def croppedDataValue (P : Processor) : List (String × SmoothedRecord) :=
  P.cache.cropped_data.getD (computeCroppedData P.channels P.params)

/-- The linear branch read through the freq_response cache; none models
the IndexError raised on recomputation over an empty crop window. -/
def freqLinearValue (P : Processor) : Option (List (String × FreqChannelLin)) :=
  match P.cache.freq_response with
  | some r => some r.linear
  | none =>
    if freqStageOk (computeCroppedData P.channels P.params) then
      some (computeFreqLinear P.channels P.params)
    else none

/-- The value read through the channel_parameters cache (none models the
propagated IndexError). -/
def channelParametersValue (P : Processor) : Option (List (String × ChannelParams)) :=
  match P.cache.channel_parameters with
  | some v => some v
  | none => computeChannelParameters P.channels P.params

/-- round(x, 12) and np.round(x, 12): nearest multiple of 10 ^ -12. -/
def round12 (x : ℚ) : ℚ := ((round (x * 10 ^ 12) : ℤ) : ℚ) / 10 ^ 12

/-- _round_data over a column. -/
def roundList (l : List ℚ) : List ℚ := l.map round12

/-- _round_data over a smoothed record (DataFrame.round(12)). -/
def roundRecord (d : SmoothedRecord) : SmoothedRecord :=
  { time := roundList d.time
    amplitude := roundList d.amplitude
    absAmplitude := roundList d.absAmplitude
    smoothed := roundList d.smoothed }

/-- _round_data over one channel-parameters entry. -/
def roundChannelParams (cp : ChannelParams) : ChannelParams :=
  { max_amplitude := round12 cp.max_amplitude
    resonance_frequency := round12 cp.resonance_frequency
    bandwidth_707 := round12 cp.bandwidth_707
    bandwidth_707_range := (round12 cp.bandwidth_707_range.1, round12 cp.bandwidth_707_range.2)
    bandwidth_fixed := round12 cp.bandwidth_fixed
    bandwidth_fixed_range :=
      (round12 cp.bandwidth_fixed_range.1, round12 cp.bandwidth_fixed_range.2)
    q_factor := round12 cp.q_factor }

/-- _round_data over one linear-response entry. -/
def roundLinChannel (f : FreqChannelLin) : FreqChannelLin :=
  { freq := roundList f.freq, amplitude := roundList f.amplitude }

/-- The public smoothed_data property (carries rounded_property). -/
def smoothedDataProp (P : Processor) : List (String × SmoothedRecord) :=
  (smoothedDataValue P).map (fun nd => (nd.1, roundRecord nd.2))

/-- The public cropped_data property (carries rounded_property). -/
def croppedDataProp (P : Processor) : List (String × SmoothedRecord) :=
  (croppedDataValue P).map (fun nd => (nd.1, roundRecord nd.2))

/-- The public freqresponse_linear property (carries rounded_property). -/
def freqresponseLinearProp (P : Processor) : Option (List (String × FreqChannelLin)) :=
  (freqLinearValue P).map (List.map (fun nd => (nd.1, roundLinChannel nd.2)))

/-- The public channel_parameters property (carries rounded_property). -/
def channelParametersProp (P : Processor) : Option (List (String × ChannelParams)) :=
  (channelParametersValue P).map (List.map (fun nd => (nd.1, roundChannelParams nd.2)))

/-- The public analysis_start_time property: the first time value of the
first cropped channel, with no rounding decorator; none models the
IndexError on an empty crop window or empty channel dict. -/
def analysisStartTimeProp (P : Processor) : Option ℚ :=
  match croppedDataValue P with
  | [] => none
  | (_, first) :: _ => first.time.head?

/-- The public raw_max_amp property (carries rounded_property). -/
def rawMaxAmpProp (P : Processor) : List (String × ℚ) :=
  (rawExtremumsValue P).map (fun nd => (nd.1, round12 nd.2.max_amp))

/-- The public raw_min_amp property (carries rounded_property). -/
def rawMinAmpProp (P : Processor) : List (String × ℚ) :=
  (rawExtremumsValue P).map (fun nd => (nd.1, round12 nd.2.min_amp))

/-- The public raw_maxamp_idx property (no rounding decorator). -/
def rawMaxampIdxProp (P : Processor) : List (String × ℕ) :=
  (rawExtremumsValue P).map (fun nd => (nd.1, nd.2.maxamp_idx))

/-- The public raw_minamp_idx property (no rounding decorator). -/
def rawMinampIdxProp (P : Processor) : List (String × ℕ) :=
  (rawExtremumsValue P).map (fun nd => (nd.1, nd.2.minamp_idx))

/-- _round_data over a raw channel frame (DataFrame.round(12)). -/
def roundChannel (c : Channel) : Channel :=
  { time := roundList c.time, amplitude := roundList c.amplitude }

/-- The value the raw_data accessor sees: the memoized per-channel copy
of the original frames, else a fresh copy (a copy of an immutable frame
is the frame itself in this embedding). -/
def rawDataValue (P : Processor) : List (String × Channel) :=
  P.precomputed.raw_data.getD P.channels

/-- The public raw_data property (carries rounded_property). -/
def rawDataProp (P : Processor) : List (String × Channel) :=
  (rawDataValue P).map (fun nc => (nc.1, roundChannel nc.2))

/-- The public rawplot property (carries rounded_property): it reads the
already rounded raw_data property and projects the time and amplitude
columns, which the decorator rounds again. -/
def rawplotProp (P : Processor) : List (String × (List ℚ × List ℚ)) :=
  (rawDataProp P).map (fun nc => (nc.1, (roundList nc.2.time, roundList nc.2.amplitude)))

/-- The public smoothedplot property (carries rounded_property): per
channel, the cropped time column shifted by its own first value, and the
cropped smoothed column.  none models the IndexError raised by indexing
the first time value of an empty cropped frame. -/
def smoothedplotProp (P : Processor) : Option (List (String × (List ℚ × List ℚ))) :=
  let cropped := croppedDataValue P
  if cropped.all (fun nd => !nd.2.time.isEmpty) then
    some (cropped.map (fun nd =>
      (nd.1, (roundList (nd.2.time.map (fun t => t - nd.2.time.getD 0 0)),
              roundList nd.2.smoothed))))
  else none

/-! Helper lemmas about the list primitives used by the pipeline. -/

theorem foldl_max_le {l : List ℚ} {a b : ℚ} (ha : a ≤ b) (hl : ∀ x ∈ l, x ≤ b) :
    l.foldl max a ≤ b := by
  induction l generalizing a with
  | nil => exact ha
  | cons x xs ih =>
    exact ih (max_le ha (hl x (List.mem_cons_self x xs)))
      (fun y hy => hl y (List.mem_cons_of_mem x hy))

theorem le_foldl_max_init {l : List ℚ} (a : ℚ) : a ≤ l.foldl max a := by
  induction l generalizing a with
  | nil => exact le_refl a
  | cons x xs ih => exact le_trans (le_max_left a x) (ih (max a x))

theorem le_foldl_max_mem {l : List ℚ} {a x : ℚ} (hx : x ∈ l) : x ≤ l.foldl max a := by
  induction l generalizing a with
  | nil => cases hx
  | cons y ys ih =>
    rcases List.mem_cons.mp hx with h | h
    · subst h
      exact le_trans (le_max_right a x) (le_foldl_max_init (max a x))
    · exact ih h

theorem le_listMax {l : List ℚ} {x : ℚ} (hx : x ∈ l) : x ≤ listMax l := by
  cases l with
  | nil => cases hx
  | cons y ys =>
    rcases List.mem_cons.mp hx with h | h
    · subst h
      exact le_foldl_max_init x
    · exact le_foldl_max_mem h

theorem listMax_le {l : List ℚ} {b : ℚ} (hne : l ≠ []) (hl : ∀ x ∈ l, x ≤ b) :
    listMax l ≤ b := by
  cases l with
  | nil => exact absurd rfl hne
  | cons y ys =>
    exact foldl_max_le (hl y (List.mem_cons_self y ys))
      (fun x hx => hl x (List.mem_cons_of_mem y hx))

theorem listMax_eq_of {l : List ℚ} {a : ℚ} (hmem : a ∈ l) (hle : ∀ x ∈ l, x ≤ a) :
    listMax l = a :=
  le_antisymm (listMax_le (List.ne_nil_of_mem hmem) hle) (le_listMax hmem)

theorem findIdx_eq_of {α : Type} {pb : α → Bool} {l : List α} {i : ℕ} (hi : i < l.length)
    (h1 : pb l[i] = true)
    (h2 : ∀ j, (hj : j < l.length) → j < i → pb l[j] = false) :
    l.findIdx pb = i := by
  have hex : ∃ x ∈ l, pb x := ⟨l[i], List.getElem_mem hi, h1⟩
  have hlt := List.findIdx_lt_length_of_exists hex
  rcases lt_trichotomy (l.findIdx pb) i with h | h | h
  · have hfalse := h2 (l.findIdx pb) hlt h
    have htrue : pb l[l.findIdx pb] = true := List.findIdx_getElem
    rw [htrue] at hfalse
    exact Bool.noConfusion hfalse
  · exact h
  · have hfalse : pb l[i] = false := List.not_of_lt_findIdx h
    rw [h1] at hfalse
    exact Bool.noConfusion hfalse

theorem getD_range_map {β : Type} (f : ℕ → β) {n i : ℕ} (h : i < n) (d : β) :
    ((List.range n).map f).getD i d = f i := by
  rw [List.getD_eq_getElem?_getD, List.getElem?_map, List.getElem?_range h]
  rfl

theorem length_range_map {β : Type} (f : ℕ → β) (n : ℕ) :
    ((List.range n).map f).length = n := by
  rw [List.length_map, List.length_range]

theorem argmaxFirst_indicator {n k : ℕ} (hk : k < n) {v : ℚ} (hv : 0 < v) :
    argmaxFirst ((List.range n).map (fun i => if i = k then v else 0)) = k := by
  have hlen : ((List.range n).map (fun i => if i = k then v else 0)).length = n :=
    length_range_map _ n
  have hmem : v ∈ (List.range n).map (fun i => if i = k then v else 0) :=
    List.mem_map.mpr ⟨k, List.mem_range.mpr hk, by simp⟩
  have hmax : listMax ((List.range n).map (fun i => if i = k then v else 0)) = v := by
    apply listMax_eq_of hmem
    intro x hx
    rcases List.mem_map.mp hx with ⟨i, _, hxi⟩
    by_cases hik : i = k
    · rw [← hxi, if_pos hik]
    · rw [← hxi, if_neg hik]
      exact le_of_lt hv
  unfold argmaxFirst
  rw [hmax]
  apply findIdx_eq_of (by rw [hlen]; exact hk)
  · simp only [List.getElem_map, List.getElem_range]
    simp
  · intro j hj hjk
    simp only [List.getElem_map, List.getElem_range]
    simp [Nat.ne_of_lt hjk, hv.ne]

set_option maxRecDepth 10000

/-- Reading signalStartCore on a one-channel dict with at least two
samples gives the clamped offset formula directly. -/
theorem signalStartCore_singleton (name : String) (d : SmoothedRecord) (cut : ℚ)
    (h2 : 2 ≤ d.time.length) :
    signalStartCore [(name, d)] name cut =
      (max 0 (min ((argmaxFirst d.amplitude : ℤ) +
        (if 0 < d.time.getD 1 0 - d.time.getD 0 0
         then intTrunc (cut / (d.time.getD 1 0 - d.time.getD 0 0)) else 0))
        ((d.time.length : ℤ) - 1))).toNat := by
  unfold signalStartCore
  simp only [List.lookup, beq_self_eq_true, if_neg (by omega : ¬ d.time.length < 2)]

@[simp] theorem smoothChannel_time (c : Channel) : (smoothChannel c).time = c.time := rfl

@[simp] theorem smoothChannel_amplitude (c : Channel) :
    (smoothChannel c).amplitude = c.amplitude := rfl

/-- The channel of the C9 scenario: 1000 evenly spaced samples over one
second (step 1/999), raw-amplitude peak at sample index 500. -/
def c9 : Channel :=
  { time := (List.range 1000).map (fun i : ℕ => (i : ℚ) / 999)
    amplitude := (List.range 1000).map (fun i : ℕ => if i = 500 then (1 : ℚ) else 0) }

/-- A processor channel dict holding only the C9 scenario channel. -/
def ch9 : List (String × Channel) := [("ch", c9)]

/-- Parameters of the C9 scenario: cut_second = 0.1, reference channel
ch, everything else at its default. -/
def p9 : ParamsDict := ⟨none, none, none, some (1 / 10), none, none, "ch"⟩

theorem floor_999_10 : ⌊(999 / 10 : ℚ)⌋ = 99 := by
  rw [Int.floor_eq_iff]
  constructor <;> norm_num

theorem intTrunc_offset9 : intTrunc ((1 / 10 : ℚ) / (1 / 999)) = 99 := by
  unfold intTrunc
  rw [if_pos (by norm_num), show (1 / 10 : ℚ) / (1 / 999) = 999 / 10 by norm_num]
  exact floor_999_10

theorem computeSignalStart_ch9 : computeSignalStart ch9 p9 = 599 := by
  have h2 : 2 ≤ (smoothChannel c9).time.length := by
    rw [smoothChannel_time]
    show 2 ≤ ((List.range 1000).map (fun i : ℕ => (i : ℚ) / 999)).length
    rw [length_range_map]
    norm_num
  show signalStartCore [("ch", smoothChannel c9)] "ch" (1 / 10) = 599
  rw [signalStartCore_singleton "ch" (smoothChannel c9) (1 / 10) h2]
  rw [smoothChannel_time, smoothChannel_amplitude]
  show (max 0 (min ((argmaxFirst ((List.range 1000).map (fun i : ℕ => if i = 500 then (1:ℚ) else 0)) : ℤ) +
      (if 0 < ((List.range 1000).map (fun i : ℕ => (i : ℚ) / 999)).getD 1 0 -
          ((List.range 1000).map (fun i : ℕ => (i : ℚ) / 999)).getD 0 0
       then intTrunc ((1 / 10) / (((List.range 1000).map (fun i : ℕ => (i : ℚ) / 999)).getD 1 0 -
          ((List.range 1000).map (fun i : ℕ => (i : ℚ) / 999)).getD 0 0)) else 0))
      ((( ((List.range 1000).map (fun i : ℕ => (i : ℚ) / 999)).length : ℤ)) - 1))).toNat = 599
  rw [getD_range_map _ (by norm_num), getD_range_map _ (by norm_num),
      argmaxFirst_indicator (by norm_num) one_pos, length_range_map]
  rw [show ((1 : ℕ) : ℚ) / 999 - ((0 : ℕ) : ℚ) / 999 = 1 / 999 by norm_num]
  rw [if_pos (by norm_num : (0:ℚ) < 1 / 999), intTrunc_offset9]
  decide

/-- Claim C9 is false on the code: on a reference channel with 1000
evenly spaced samples over 1 second, raw peak at index 500 and
cut_second = 0.1, the locator returns 599 (the offset 0.1 / (1/999) =
99.9 is truncated to 99 by int()), while the claimed formula
500 + round(0.1 / (1/999)) evaluates to 600. -/
theorem C9_counterexample :
    computeSignalStart ch9 p9 = 599 ∧
    (500 : ℤ) + round ((1 / 10 : ℚ) / (1 / 999)) = 600 ∧
    (computeSignalStart ch9 p9 : ℤ) ≠ 500 + round ((1 / 10 : ℚ) / (1 / 999)) := by
  have hr : round ((1 / 10 : ℚ) / (1 / 999)) = 100 := by
    rw [show (1 / 10 : ℚ) / (1 / 999) = 999 / 10 by norm_num, round_eq]
    rw [show (999 / 10 : ℚ) + 1 / 2 = 1004 / 10 by norm_num]
    rw [Int.floor_eq_iff]
    constructor <;> norm_num
  refine ⟨computeSignalStart_ch9, by rw [hr]; decide, ?_⟩
  rw [computeSignalStart_ch9, hr]
  decide

/-- Claim C9 amended: on the 1000-sample scenario channel with peak at
index 500 and cut_second = 0.1, the locator returns
500 + int(0.1 / (1/999)) — the offset in samples truncated toward zero,
not rounded to nearest — which is 500 + 99 = 599. -/
theorem C9_offset_locator_truncated :
    computeSignalStart ch9 p9 = 500 + (intTrunc ((1 / 10 : ℚ) / (1 / 999))).toNat ∧
    intTrunc ((1 / 10 : ℚ) / (1 / 999)) = 99 := by
  refine ⟨?_, intTrunc_offset9⟩
  rw [computeSignalStart_ch9, intTrunc_offset9]
  decide

/-- The channel of the C8 boundary check: 101 samples with unit time
step, raw-amplitude peak at sample index 1, so that the crop start is 1
and max_possible_points is 100. -/
def c8 : Channel :=
  { time := (List.range 101).map (fun i : ℕ => (i : ℚ))
    amplitude := (List.range 101).map (fun i : ℕ => if i = 1 then (5 : ℚ) else 0) }

/-- A processor channel dict holding only the C8 boundary channel. -/
def ch8 : List (String × Channel) := [("ch", c8)]

/-- Parameters of the C8 boundary check: record_time = 95 requests 95
points, within 9 of the 100 available ones. -/
def p8 : ParamsDict := ⟨none, none, some 95, some 0, none, none, "ch"⟩

unseal Rat.sub Rat.mul Rat.inv Rat.add in
/-- Claim C8 is false on the code: with 100 available points past the
crop start and requested_points = 95 (which is at least
max_possible_points - 9 = 91), the crop keeps 95 points, not all 100:
the 10-point floor guard fires only when min(requested, max_possible)
itself drops below 10, not within 9 points of max_possible. -/
theorem C8_counterexample :
    requestedPoints 95 1 = 95 ∧
    maxPossiblePoints 101 (computeSignalStart ch8 p8) = 100 ∧
    (100 : ℤ) - 9 ≤ 95 ∧
    computeCroppedIndices ch8 p8 = (1, 95) ∧
    (computeCroppedIndices ch8 p8).2 ≠
      (maxPossiblePoints 101 (computeSignalStart ch8 p8)).toNat := by
  refine ⟨by decide, by decide, by decide, by decide, by decide⟩

/-- Claim C8 amended: the crop uses exactly max_possible_points samples
whenever requested_points is at least max_possible_points (for
requested_points between max_possible_points - 9 and max_possible_points
- 1 the crop keeps requested_points samples unless the 10-point floor
fires). -/
theorem C8_crop_floor (smoothed : List (String × SmoothedRecord)) (ssc : String)
    (cut rt : ℚ) (sc : SmoothedRecord)
    (hlook : smoothed.lookup ssc = some sc) (h2 : 2 ≤ sc.time.length)
    (hreq : maxPossiblePoints sc.time.length (signalStartCore smoothed ssc cut) ≤
      requestedPoints rt (sc.time.getD 1 0 - sc.time.getD 0 0)) :
    (croppedIndicesCore smoothed ssc cut rt).2 =
      (maxPossiblePoints sc.time.length (signalStartCore smoothed ssc cut)).toNat := by
  cases smoothed with
  | nil => simp [List.lookup] at hlook
  | cons a tl =>
    unfold croppedIndicesCore
    simp only [hlook]
    rw [if_neg (by omega : ¬ sc.time.length < 2)]
    rw [min_eq_right hreq]
    split
    · rfl
    · rfl

unseal Rat.sub Rat.mul Rat.inv Rat.add in
/-- Witness for the amended C8 theorem: with record_time = 200 the 101
sample channel requests 200 points, at least the 100 available ones, and
the crop keeps exactly 100. -/
theorem C8_crop_floor_witness :
    (computeSmoothedData ch8).lookup "ch" = some (smoothChannel c8) ∧
    2 ≤ (smoothChannel c8).time.length ∧
    maxPossiblePoints (smoothChannel c8).time.length
        (signalStartCore (computeSmoothedData ch8) "ch" 0) ≤
      requestedPoints 200 ((smoothChannel c8).time.getD 1 0 - (smoothChannel c8).time.getD 0 0) ∧
    (croppedIndicesCore (computeSmoothedData ch8) "ch" 0 200).2 = 100 := by
  refine ⟨rfl, by decide, by decide, ?_⟩
  rw [C8_crop_floor (computeSmoothedData ch8) "ch" 0 200 (smoothChannel c8) rfl
    (by decide) (by decide)]
  decide

/-- Claim C10: set_signal_start_channel with a name that is not a key of
the channel dict is a silent no-op: the processor state (parameter dict
included) is returned unchanged, no cache entry is deleted, and no error
path exists. -/
theorem C10_set_unknown_channel_noop (P : Processor) (name : String)
    (h : P.channels.lookup name = none) :
    setSignalStartChannel P name = P ∧
    (setSignalStartChannel P name).params.signal_start_channel =
      P.params.signal_start_channel ∧
    (setSignalStartChannel P name).cache = P.cache := by
  have : setSignalStartChannel P name = P := by
    unfold setSignalStartChannel
    rw [h]
    simp
  exact ⟨this, by rw [this], by rw [this]⟩

/-- A concrete processor for the C10 witness. -/
def P10 : Processor :=
  { channels := [("ch1", { time := [0, 1], amplitude := [1, 2] })]
    params := ⟨none, none, none, none, none, none, "ch1"⟩
    cache := Cache.empty
    precomputed := Precomputed.empty }

/-- Witness for C10: the name nope is not a channel of P10 and setting it
leaves the processor unchanged. -/
theorem C10_set_unknown_channel_noop_witness :
    P10.channels.lookup "nope" = none ∧ setSignalStartChannel P10 "nope" = P10 :=
  ⟨rfl, (C10_set_unknown_channel_noop P10 "nope" rfl).1⟩

/-- The channel dict of the C6 failing input: one healthy channel. -/
def ch6 : List (String × Channel) := [("ch1", { time := [0, 1, 2], amplitude := [1, 2, 1] })]

/-- Parameters whose signal_start_channel names no existing channel. -/
def p6 : ParamsDict := ⟨none, none, none, none, none, none, "missing"⟩

/-- The processor built on the C6 failing input. -/
def P6 : Processor := ⟨ch6, p6, Cache.empty, Precomputed.empty⟩

/-- Claim C6 and the failing input: with a signal_start_channel that
names no existing channel, the locator returns 0 and the crop is the
empty window as claimed, and cropped_data degrades to empty records; but
the frequency-response stage (and with it channel_parameters and
analysis_start_time) does not degrade: the source indexes the empty
cropped time column with .iloc[0] and raises IndexError, modelled here
by the stage returning none instead of an empty/zero-valued result. -/
theorem C6_missing_reference_channel :
    computeSignalStart ch6 p6 = 0 ∧
    computeCroppedIndices ch6 p6 = (0, 0) ∧
    computeCroppedData ch6 p6 = [("ch1", (⟨[], [], [], []⟩ : SmoothedRecord))] ∧
    freqStageOk (computeCroppedData ch6 p6) = false ∧
    computeFreqResponseData ch6 p6 = none ∧
    computeChannelParameters ch6 p6 = none ∧
    analysisStartTimeProp P6 = none :=
  ⟨rfl, rfl, by decide, rfl, rfl, rfl, rfl⟩

/-- The channel of the C7 counterexample: its time axis starts at 1/3,
which is not representable in 12 decimal places. -/
def c7 : Channel := { time := [1 / 3, 2 / 3], amplitude := [1, 0] }

/-- Channel dict of the C7 counterexample. -/
def ch7 : List (String × Channel) := [("ch", c7)]

/-- Default parameters referencing the C7 channel. -/
def p7 : ParamsDict := ⟨none, none, none, none, none, none, "ch"⟩

/-- Processor of the C7 counterexample. -/
def P7 : Processor := ⟨ch7, p7, Cache.empty, Precomputed.empty⟩

unseal Rat.sub Rat.mul Rat.inv Rat.add in
/-- Claim C7 is false on the code: analysis_start_time carries no
rounding decorator and returns the crop-start time raw.  On a channel
whose time axis starts at 1/3 the property returns exactly 1/3, which is
not a 12-decimal value (round12 (1/3) differs from 1/3). -/
theorem C7_counterexample :
    analysisStartTimeProp P7 = some (1 / 3) ∧ round12 (1 / 3) ≠ (1 / 3 : ℚ) := by
  refine ⟨by decide, by decide⟩

/-- round12 lands on its own grid: rounding is idempotent. -/
theorem round12_idem (x : ℚ) : round12 (round12 x) = round12 x := by
  unfold round12
  rw [div_mul_cancel₀ _ (by norm_num : (10 : ℚ) ^ 12 ≠ 0), round_intCast]

/-- A rational exactly representable with 12 decimal places. -/
def isRounded12 (x : ℚ) : Prop := round12 x = x

theorem isRounded12_round12 (x : ℚ) : isRounded12 (round12 x) := round12_idem x

theorem forall_mem_roundList (l : List ℚ) : ∀ x ∈ roundList l, isRounded12 x := by
  intro x hx
  rcases List.mem_map.mp hx with ⟨y, _, hy⟩
  exact hy ▸ isRounded12_round12 y

/-- Claim C7 amended: every numeric value returned by the nine read
operations that carry the rounding decorator (raw_data, smoothed_data,
cropped_data, rawplot, smoothedplot, freqresponse_linear,
channel_parameters, raw_max_amp, raw_min_amp) is a 12-decimal value,
while analysis_start_time is exempt along with freqresponse_dB and the
raw index properties: it returns the first cropped time sample with no
rounding applied. -/
theorem C7_rounding_boundary (P : Processor) :
    (∀ nd ∈ rawDataProp P,
      (∀ x ∈ nd.2.time, isRounded12 x) ∧ ∀ x ∈ nd.2.amplitude, isRounded12 x) ∧
    (∀ nd ∈ smoothedDataProp P,
      (∀ x ∈ nd.2.time, isRounded12 x) ∧ (∀ x ∈ nd.2.amplitude, isRounded12 x) ∧
      (∀ x ∈ nd.2.absAmplitude, isRounded12 x) ∧ ∀ x ∈ nd.2.smoothed, isRounded12 x) ∧
    (∀ nd ∈ croppedDataProp P,
      (∀ x ∈ nd.2.time, isRounded12 x) ∧ (∀ x ∈ nd.2.amplitude, isRounded12 x) ∧
      (∀ x ∈ nd.2.absAmplitude, isRounded12 x) ∧ ∀ x ∈ nd.2.smoothed, isRounded12 x) ∧
    (∀ nd ∈ rawplotProp P,
      (∀ x ∈ nd.2.1, isRounded12 x) ∧ ∀ x ∈ nd.2.2, isRounded12 x) ∧
    (∀ l, smoothedplotProp P = some l → ∀ nd ∈ l,
      (∀ x ∈ nd.2.1, isRounded12 x) ∧ ∀ x ∈ nd.2.2, isRounded12 x) ∧
    (∀ l, freqresponseLinearProp P = some l → ∀ nd ∈ l,
      (∀ x ∈ nd.2.freq, isRounded12 x) ∧ ∀ x ∈ nd.2.amplitude, isRounded12 x) ∧
    (∀ l, channelParametersProp P = some l → ∀ nd ∈ l,
      isRounded12 nd.2.max_amplitude ∧ isRounded12 nd.2.resonance_frequency ∧
      isRounded12 nd.2.bandwidth_707 ∧ isRounded12 nd.2.bandwidth_707_range.1 ∧
      isRounded12 nd.2.bandwidth_707_range.2 ∧ isRounded12 nd.2.bandwidth_fixed ∧
      isRounded12 nd.2.bandwidth_fixed_range.1 ∧ isRounded12 nd.2.bandwidth_fixed_range.2 ∧
      isRounded12 nd.2.q_factor) ∧
    (∀ nd ∈ rawMaxAmpProp P, isRounded12 nd.2) ∧
    (∀ nd ∈ rawMinAmpProp P, isRounded12 nd.2) ∧
    analysisStartTimeProp P =
      ((croppedDataValue P).head?.bind (fun nd => nd.2.time.head?)) := by
  refine ⟨?_, ?_, ?_, ?_, ?_, ?_, ?_, ?_, ?_, ?_⟩
  · intro nd hnd
    rcases List.mem_map.mp hnd with ⟨orig, _, horig⟩
    rw [← horig]
    exact ⟨forall_mem_roundList _, forall_mem_roundList _⟩
  · intro nd hnd
    rcases List.mem_map.mp hnd with ⟨orig, _, horig⟩
    rw [← horig]
    exact ⟨forall_mem_roundList _, forall_mem_roundList _, forall_mem_roundList _,
      forall_mem_roundList _⟩
  · intro nd hnd
    rcases List.mem_map.mp hnd with ⟨orig, _, horig⟩
    rw [← horig]
    exact ⟨forall_mem_roundList _, forall_mem_roundList _, forall_mem_roundList _,
      forall_mem_roundList _⟩
  · intro nd hnd
    rcases List.mem_map.mp hnd with ⟨orig, _, horig⟩
    rw [← horig]
    exact ⟨forall_mem_roundList _, forall_mem_roundList _⟩
  · intro l hl nd hnd
    by_cases hc : (croppedDataValue P).all (fun nd => !nd.2.time.isEmpty) = true
    · simp only [smoothedplotProp, hc, if_true] at hl
      cases hl
      rcases List.mem_map.mp hnd with ⟨orig, _, horig⟩
      rw [← horig]
      exact ⟨forall_mem_roundList _, forall_mem_roundList _⟩
    · simp only [smoothedplotProp] at hl
      rw [if_neg hc] at hl
      cases hl
  · intro l hl nd hnd
    unfold freqresponseLinearProp at hl
    cases hv : freqLinearValue P with
    | none => rw [hv] at hl; cases hl
    | some v =>
      rw [hv] at hl
      cases hl
      rcases List.mem_map.mp hnd with ⟨orig, _, horig⟩
      rw [← horig]
      exact ⟨forall_mem_roundList _, forall_mem_roundList _⟩
  · intro l hl nd hnd
    unfold channelParametersProp at hl
    cases hv : channelParametersValue P with
    | none => rw [hv] at hl; cases hl
    | some v =>
      rw [hv] at hl
      cases hl
      rcases List.mem_map.mp hnd with ⟨orig, _, horig⟩
      rw [← horig]
      exact ⟨isRounded12_round12 _, isRounded12_round12 _, isRounded12_round12 _,
        isRounded12_round12 _, isRounded12_round12 _, isRounded12_round12 _,
        isRounded12_round12 _, isRounded12_round12 _, isRounded12_round12 _⟩
  · intro nd hnd
    rcases List.mem_map.mp hnd with ⟨orig, _, horig⟩
    rw [← horig]
    exact isRounded12_round12 _
  · intro nd hnd
    rcases List.mem_map.mp hnd with ⟨orig, _, horig⟩
    rw [← horig]
    exact isRounded12_round12 _
  · unfold analysisStartTimeProp
    cases croppedDataValue P with
    | nil => rfl
    | cons a tl => rfl

unseal Rat.sub Rat.mul Rat.inv Rat.add in
/-- Witness for the amended C7 theorem at the concrete processor P7: its
raw_max_amp output contains the 12-decimal value 1 for channel ch. -/
theorem C7_rounding_boundary_witness :
    ("ch", (1 : ℚ)) ∈ rawMaxAmpProp P7 ∧ isRounded12 (1 : ℚ) := by
  refine ⟨by decide, ?_⟩
  have h := (C7_rounding_boundary P7).2.2.2.2.2.2.2.1 ("ch", (1 : ℚ)) (by decide)
  exact h

theorem listMean_reverse (l : List ℚ) : listMean l.reverse = listMean l := by
  unfold listMean
  rw [List.sum_reverse, List.length_reverse]

theorem windowEnd_reverse (m : List ℚ) (i : ℕ) (hi : i < m.length) :
    windowEnd m.reverse (m.length - 1 - i) = ((m.drop i).take 15).reverse := by
  unfold windowEnd
  apply List.ext_getElem
  · simp only [List.length_drop, List.length_take, List.length_reverse]
    omega
  · intro k h1 h2
    rw [List.getElem_drop, List.getElem_take, List.getElem_reverse, List.getElem_reverse,
      List.getElem_take, List.getElem_drop]
    congr 1
    simp only [List.length_drop, List.length_take, List.length_reverse] at h1 h2 ⊢
    omega

theorem rollingMean15_reverse_reverse (m : List ℚ) :
    (rollingMean15 m.reverse).reverse =
      (List.range m.length).map (fun i => listMean ((m.drop i).take 15)) := by
  apply List.ext_getElem
  · simp [rollingMean15]
  · intro i h1 h2
    have hi : i < m.length := by simpa using h2
    rw [List.getElem_reverse]
    unfold rollingMean15
    rw [List.getElem_map, List.getElem_range, List.getElem_map, List.getElem_range]
    have hidx : (rollingMean15 m.reverse).length - 1 - i = m.length - 1 - i := by
      unfold rollingMean15
      simp only [List.length_map, List.length_range, List.length_reverse]
    simp only [List.length_map, List.length_range, List.length_reverse]
    rw [windowEnd_reverse m i hi, listMean_reverse]

/-- Claim C3: the smoothed trace is exactly the pipeline abs, reverse,
trailing moving average of window 15 with min_periods 1, reverse;
equivalently each position i holds the mean of the forward window of up
to 15 absolute amplitudes starting at i.  The smoothing stage is a
function of the raw channel data alone: it does not take the parameter
dict, and the smoothed_data read is unchanged under any parameter or
cache state. -/
theorem C3_smoothing (c : Channel) :
    (smoothChannel c).smoothed =
      (rollingMean15 ((c.amplitude.map (fun x => |x|)).reverse)).reverse ∧
    (smoothChannel c).smoothed =
      (List.range (c.amplitude.map (fun x => |x|)).length).map
        (fun i => listMean (((c.amplitude.map (fun x => |x|)).drop i).take 15)) ∧
    (∀ channels : List (String × Channel),
      computeSmoothedData channels = channels.map (fun nc => (nc.1, smoothChannel nc.2))) ∧
    (∀ (channels : List (String × Channel)) (p1 p2 : ParamsDict) (c1 c2 : Cache)
      (pre : Precomputed),
      smoothedDataValue ⟨channels, p1, c1, pre⟩ = smoothedDataValue ⟨channels, p2, c2, pre⟩) :=
  ⟨rfl, rollingMean15_reverse_reverse _, fun _ => rfl, fun _ _ _ _ _ _ => rfl⟩

theorem lastIdxWhere_lt_length {pb : ℚ → Bool} {l : List ℚ} (hex : ∃ x ∈ l, pb x) :
    lastIdxWhere pb l < l.length := by
  have hex2 : ∃ x ∈ l.reverse, pb x := by
    rcases hex with ⟨x, hx, hpx⟩
    exact ⟨x, List.mem_reverse.mpr hx, hpx⟩
  have h1 := List.findIdx_lt_length_of_exists hex2
  rw [List.length_reverse] at h1
  have h0 : 0 < l.length := by
    rcases hex with ⟨x, hx, _⟩
    exact List.length_pos_of_mem hx
  unfold lastIdxWhere
  omega

theorem getElem_lastIdxWhere {pb : ℚ → Bool} {l : List ℚ} (hex : ∃ x ∈ l, pb x) :
    pb (l.get ⟨lastIdxWhere pb l, lastIdxWhere_lt_length hex⟩) = true := by
  have hex2 : ∃ x ∈ l.reverse, pb x := by
    rcases hex with ⟨x, hx, hpx⟩
    exact ⟨x, List.mem_reverse.mpr hx, hpx⟩
  have hk := List.findIdx_lt_length_of_exists hex2
  have hp : pb (l.reverse.get ⟨l.reverse.findIdx pb, hk⟩) = true := List.findIdx_getElem
  rw [List.get_eq_getElem, List.getElem_reverse] at hp
  rw [List.get_eq_getElem]
  exact hp

theorem not_of_gt_lastIdxWhere {pb : ℚ → Bool} {l : List ℚ} {j : ℕ}
    (hex : ∃ x ∈ l, pb x) (hj : j < l.length) (hgt : lastIdxWhere pb l < j) :
    pb l[j] = false := by
  have hex2 : ∃ x ∈ l.reverse, pb x := by
    rcases hex with ⟨x, hx, hpx⟩
    exact ⟨x, List.mem_reverse.mpr hx, hpx⟩
  have hk := List.findIdx_lt_length_of_exists hex2
  rw [List.length_reverse] at hk
  have hlt : l.length - 1 - j < l.reverse.findIdx pb := by
    unfold lastIdxWhere at hgt
    omega
  have hfalse : pb (l.reverse.get ⟨l.length - 1 - j, by rw [List.length_reverse]; omega⟩) =
      false := List.not_of_lt_findIdx hlt
  rw [List.get_eq_getElem, List.getElem_reverse] at hfalse
  have hjj : l.length - 1 - (l.length - 1 - j) = j := by omega
  simp only [hjj] at hfalse
  exact hfalse

theorem getD_of_lt {α : Type} (l : List α) (n : ℕ) (a : α) (h : n < l.length) :
    l.getD n a = l[n] := by
  rw [List.getD_eq_getElem?_getD, List.getElem?_eq_getElem h]
  rfl

theorem extractParams_bw707_pos (fl : ℚ) (d : FreqChannelLin)
    (h : d.amplitude.any (fun a => decide (listMax d.amplitude * (707 / 1000) ≤ a)) = true) :
    (extractParams fl d).bandwidth_707 =
      d.freq.getD (lastIdxWhere (fun a => decide (listMax d.amplitude * (707 / 1000) ≤ a))
          d.amplitude) 0 -
        d.freq.getD (d.amplitude.findIdx
          (fun a => decide (listMax d.amplitude * (707 / 1000) ≤ a))) 0 ∧
    (extractParams fl d).bandwidth_707_range =
      (d.freq.getD (d.amplitude.findIdx
          (fun a => decide (listMax d.amplitude * (707 / 1000) ≤ a))) 0,
       d.freq.getD (lastIdxWhere (fun a => decide (listMax d.amplitude * (707 / 1000) ≤ a))
          d.amplitude) 0) := by
  unfold extractParams
  simp only [h, if_true]
  exact ⟨trivial, trivial⟩

theorem extractParams_bw707_neg (fl : ℚ) (d : FreqChannelLin)
    (h : d.amplitude.any (fun a => decide (listMax d.amplitude * (707 / 1000) ≤ a)) = false) :
    (extractParams fl d).bandwidth_707 = 0 ∧
    (extractParams fl d).bandwidth_707_range = (0, 0) := by
  unfold extractParams
  simp only [h, if_false, Bool.false_eq_true]
  exact ⟨trivial, trivial⟩

theorem extractParams_q_factor (fl : ℚ) (d : FreqChannelLin) :
    (extractParams fl d).q_factor =
      if 0 < (extractParams fl d).bandwidth_707 then
        (extractParams fl d).resonance_frequency / (extractParams fl d).bandwidth_707
      else 0 := rfl

/-- Claim C4: over a channel of the linear response, low_idx and
high_idx are the first and last indices anywhere in the response whose
amplitude reaches max_amp * 0.707; the bandwidth is freq[high_idx] -
freq[low_idx] with range (freq[low_idx], freq[high_idx]); when no sample
reaches the threshold both degrade to 0 and (0, 0); and the Q-factor is
resonance / bandwidth when the bandwidth is positive, else 0. -/
theorem C4_half_power_bandwidth (fl : ℚ) (d : FreqChannelLin) :
    ((∃ x ∈ d.amplitude, listMax d.amplitude * (707 / 1000) ≤ x) →
      ∃ lo hi, lo < d.amplitude.length ∧ hi < d.amplitude.length ∧
        listMax d.amplitude * (707 / 1000) ≤ d.amplitude.getD lo 0 ∧
        (∀ j, j < lo → ¬ listMax d.amplitude * (707 / 1000) ≤ d.amplitude.getD j 0) ∧
        listMax d.amplitude * (707 / 1000) ≤ d.amplitude.getD hi 0 ∧
        (∀ j, hi < j → j < d.amplitude.length →
          ¬ listMax d.amplitude * (707 / 1000) ≤ d.amplitude.getD j 0) ∧
        (extractParams fl d).bandwidth_707 = d.freq.getD hi 0 - d.freq.getD lo 0 ∧
        (extractParams fl d).bandwidth_707_range = (d.freq.getD lo 0, d.freq.getD hi 0)) ∧
    ((∀ x ∈ d.amplitude, ¬ listMax d.amplitude * (707 / 1000) ≤ x) →
      (extractParams fl d).bandwidth_707 = 0 ∧
      (extractParams fl d).bandwidth_707_range = (0, 0)) ∧
    (extractParams fl d).q_factor =
      (if 0 < (extractParams fl d).bandwidth_707 then
        (extractParams fl d).resonance_frequency / (extractParams fl d).bandwidth_707
      else 0) := by
  refine ⟨?_, ?_, extractParams_q_factor fl d⟩
  · intro hex
    have hexb : ∃ x ∈ d.amplitude,
        (fun a => decide (listMax d.amplitude * (707 / 1000) ≤ a)) x := by
      rcases hex with ⟨x, hx, hle⟩
      exact ⟨x, hx, by simpa using hle⟩
    have hany : d.amplitude.any
        (fun a => decide (listMax d.amplitude * (707 / 1000) ≤ a)) = true :=
      List.any_eq_true.mpr hexb
    have hlo := List.findIdx_lt_length_of_exists hexb
    have hhi := lastIdxWhere_lt_length hexb
    refine ⟨d.amplitude.findIdx (fun a => decide (listMax d.amplitude * (707 / 1000) ≤ a)),
      lastIdxWhere (fun a => decide (listMax d.amplitude * (707 / 1000) ≤ a)) d.amplitude,
      hlo, hhi, ?_, ?_, ?_, ?_,
      (extractParams_bw707_pos fl d hany).1, (extractParams_bw707_pos fl d hany).2⟩
    · rw [getD_of_lt _ _ _ hlo]
      have h : (fun a => decide (listMax d.amplitude * (707 / 1000) ≤ a))
          (d.amplitude[d.amplitude.findIdx
            (fun a => decide (listMax d.amplitude * (707 / 1000) ≤ a))]) = true :=
        List.findIdx_getElem (w := hlo)
      simpa using h
    · intro j hj
      have hjl : j < d.amplitude.length := lt_trans hj hlo
      rw [getD_of_lt _ _ _ hjl]
      have h : (fun a => decide (listMax d.amplitude * (707 / 1000) ≤ a))
          (d.amplitude[j]) = false := List.not_of_lt_findIdx hj
      simpa using h
    · rw [getD_of_lt _ _ _ hhi]
      have h := getElem_lastIdxWhere hexb
      simpa using h
    · intro j hgt hjl
      rw [getD_of_lt _ _ _ hjl]
      have h := not_of_gt_lastIdxWhere hexb hjl hgt
      simpa using h
  · intro hall
    have hany : d.amplitude.any
        (fun a => decide (listMax d.amplitude * (707 / 1000) ≤ a)) = false := by
      rw [List.any_eq_false]
      intro x hx
      simpa using hall x hx
    exact extractParams_bw707_neg fl d hany

/-- The linear-response channel of the C4 and C1 witnesses. -/
def d4 : FreqChannelLin := { freq := [10, 20, 30], amplitude := [1, 1 / 2, 1] }

unseal Rat.sub Rat.mul Rat.inv Rat.add in
/-- Witness for C4 at a concrete channel: threshold 0.707 is reached
first at index 0 and last at index 2, bandwidth is 30 - 10 = 20 with
range (10, 30). -/
theorem C4_half_power_bandwidth_witness :
    (∃ x ∈ d4.amplitude, listMax d4.amplitude * (707 / 1000) ≤ x) ∧
    (∃ lo hi, lo < d4.amplitude.length ∧ hi < d4.amplitude.length ∧
      listMax d4.amplitude * (707 / 1000) ≤ d4.amplitude.getD lo 0 ∧
      (∀ j, j < lo → ¬ listMax d4.amplitude * (707 / 1000) ≤ d4.amplitude.getD j 0) ∧
      listMax d4.amplitude * (707 / 1000) ≤ d4.amplitude.getD hi 0 ∧
      (∀ j, hi < j → j < d4.amplitude.length →
        ¬ listMax d4.amplitude * (707 / 1000) ≤ d4.amplitude.getD j 0) ∧
      (extractParams (3 / 5) d4).bandwidth_707 = d4.freq.getD hi 0 - d4.freq.getD lo 0 ∧
      (extractParams (3 / 5) d4).bandwidth_707_range =
        (d4.freq.getD lo 0, d4.freq.getD hi 0)) :=
  ⟨by decide, (C4_half_power_bandwidth (3 / 5) d4).1 (by decide)⟩

/-- Claim C1: the max_amplitude entry of the channel parameters is twice
the peak of the linear-response amplitude, before rounding; in
particular a peak of 0.5 is reported through the rounded
channel_parameters boundary as exactly 1. -/
theorem C1_max_amplitude_doubled (fl : ℚ) (d : FreqChannelLin) :
    (extractParams fl d).max_amplitude = listMax d.amplitude * 2 ∧
    (listMax d.amplitude = 1 / 2 →
      (roundChannelParams (extractParams fl d)).max_amplitude = 1) ∧
    (∀ lin : List (String × FreqChannelLin), channelParamsOfLinear fl lin =
      lin.map (fun nd => (nd.1, extractParams fl nd.2))) := by
  refine ⟨rfl, ?_, fun _ => rfl⟩
  intro hhalf
  have h2 : (extractParams fl d).max_amplitude = 1 := by
    rw [show (extractParams fl d).max_amplitude = listMax d.amplitude * 2 from rfl, hhalf]
    norm_num
  show round12 (extractParams fl d).max_amplitude = 1
  rw [h2]
  unfold round12
  norm_num

/-- The linear-response channel of the C1 witness: peak amplitude 1/2. -/
def d1 : FreqChannelLin := { freq := [10, 20], amplitude := [1 / 2, 1 / 4] }

unseal Rat.sub Rat.mul Rat.inv Rat.add in
/-- Witness for C1 at a concrete channel with peak 0.5: the rounded
max_amplitude is exactly 1. -/
theorem C1_max_amplitude_doubled_witness :
    listMax d1.amplitude = 1 / 2 ∧
    (roundChannelParams (extractParams (3 / 5) d1)).max_amplitude = 1 :=
  ⟨by decide, (C1_max_amplitude_doubled (3 / 5) d1).2.1 (by decide)⟩

theorem freqResponseData_eq {channels : List (String × Channel)} {p : ParamsDict}
    {r : FreqResponseData} (h : computeFreqResponseData channels p = some r) :
    r.linear = linPart (computeCroppedData channels p) (derive p) ∧
    r.dB = dbPart (computeCroppedData channels p) (derive p) := by
  by_cases hok : freqStageOk (computeCroppedData channels p) = true
  · unfold computeFreqResponseData at h
    simp only [hok, if_true] at h
    cases h
    exact ⟨rfl, rfl⟩
  · unfold computeFreqResponseData at h
    simp only [Bool.not_eq_true] at hok
    simp only [hok, Bool.false_eq_true, if_false] at h
    cases h

theorem forall₂_map_self {α β : Type} (f : α → β) (R : α → β → Prop) (l : List α)
    (h : ∀ a ∈ l, R a (f a)) : List.Forall₂ R l (l.map f) := by
  induction l with
  | nil => exact List.Forall₂.nil
  | cons a tl ih =>
    exact List.Forall₂.cons (h a (List.mem_cons_self a tl))
      (ih (fun b hb => h b (List.mem_cons_of_mem a hb)))

/-- The cropped input of the C2 gain/dB scenario: smoothed column 1, 2, 3. -/
def crop2 : List (String × SmoothedRecord) :=
  [("ch", { time := [0, 1, 2], amplitude := [1, 2, 3],
            absAmplitude := [1, 2, 3], smoothed := [1, 2, 3] })]

/-- Parameters of the C2 scenario: gain 2. -/
def pg2 : ParamsDict := ⟨some 1, some 2, some 1, some 0, none, some 2, "ch"⟩

/-- Claim C2: per channel, the linear response amplitude is the cropped
smoothed column multiplied by gain, while the dB branch is 20 * log10 of
the cropped smoothed column with the gain NOT applied; on a channel with
smoothed column 1, 2, 3 and gain 2 the linear amplitudes are 2, 4, 6 and
the dB amplitudes are 20 * log10 of 1, 2, 3. -/
theorem C2_gain_dB_asymmetry (channels : List (String × Channel)) (p : ParamsDict)
    (r : FreqResponseData) (h : computeFreqResponseData channels p = some r) :
    List.Forall₂ (fun (nd : String × SmoothedRecord) (nl : String × FreqChannelLin) =>
        nl.1 = nd.1 ∧ nl.2.amplitude = nd.2.smoothed.map (fun x => x * (derive p).gain))
      (computeCroppedData channels p) r.linear ∧
    List.Forall₂ (fun (nd : String × SmoothedRecord) (nD : String × FreqChannelDB) =>
        nD.1 = nd.1 ∧
        nD.2.db_amplitude = nd.2.smoothed.map (fun x : ℚ => 20 * Real.logb 10 (x : ℝ)))
      (computeCroppedData channels p) r.dB ∧
    (linPart crop2 (derive pg2)).map (fun nd => nd.2.amplitude) = [[2, 4, 6]] ∧
    (dbPart crop2 (derive pg2)).map (fun nd => nd.2.db_amplitude) =
      [[20 * Real.logb 10 (1 : ℝ), 20 * Real.logb 10 (2 : ℝ), 20 * Real.logb 10 (3 : ℝ)]] := by
  refine ⟨?_, ?_, ?_, ?_⟩
  · rw [(freqResponseData_eq h).1]
    unfold linPart
    exact forall₂_map_self _ _ _ (fun a _ => ⟨rfl, rfl⟩)
  · rw [(freqResponseData_eq h).2]
    unfold dbPart
    exact forall₂_map_self _ _ _ (fun a _ => ⟨rfl, rfl⟩)
  · unfold linPart crop2
    simp only [List.map_cons, List.map_nil]
    norm_num [derive, pg2]
  · unfold dbPart crop2 dbOf
    simp only [List.map_cons, List.map_nil]
    norm_num

/-- The channel dict of the C2 witness. -/
def ch2w : List (String × Channel) := [("ch", { time := [0, 1], amplitude := [1, 2] })]

/-- Parameters of the C2 witness (gain 2). -/
def p2w : ParamsDict := ⟨some 1, some 2, some 1, some 0, none, some 2, "ch"⟩

/-- The frequency-response value computed on the C2 witness input. -/
noncomputable def r2w : FreqResponseData :=
  ⟨linPart (computeCroppedData ch2w p2w) (derive p2w),
   dbPart (computeCroppedData ch2w p2w) (derive p2w)⟩

unseal Rat.sub Rat.mul Rat.inv Rat.add in
/-- Witness for C2: on a concrete two-sample processor the frequency
stage completes and its linear branch is the gain-scaled smoothed data. -/
theorem C2_gain_dB_asymmetry_witness :
    computeFreqResponseData ch2w p2w = some r2w ∧
    List.Forall₂ (fun (nd : String × SmoothedRecord) (nl : String × FreqChannelLin) =>
        nl.1 = nd.1 ∧ nl.2.amplitude = nd.2.smoothed.map (fun x => x * (derive p2w).gain))
      (computeCroppedData ch2w p2w) r2w.linear := by
  have h : computeFreqResponseData ch2w p2w = some r2w := by
    have hok : freqStageOk (computeCroppedData ch2w p2w) = true := by decide
    show (if freqStageOk (computeCroppedData ch2w p2w) then
      some ({ linear := linPart (computeCroppedData ch2w p2w) (derive p2w)
              dB := dbPart (computeCroppedData ch2w p2w) (derive p2w) } : FreqResponseData)
      else none) = some r2w
    simp only [hok, if_true]
    rfl
  exact ⟨h, (C2_gain_dB_asymmetry ch2w p2w r2w h).1⟩

theorem lookup_linPart (cropped : List (String × SmoothedRecord)) (d : Derived)
    (name : String) :
    (linPart cropped d).lookup name =
      (cropped.lookup name).map (fun s => ({ freq := croppedFreqs cropped d
                                             amplitude := s.smoothed.map (fun x => x * d.gain) } :
        FreqChannelLin)) := by
  unfold linPart
  generalize croppedFreqs cropped d = fr
  induction cropped with
  | nil => rfl
  | cons a tl ih =>
    simp only [List.map_cons, List.lookup]
    cases h : name == a.1 with
    | true => rfl
    | false => exact ih

theorem lookup_channelParams (fl : ℚ) (lin : List (String × FreqChannelLin))
    (name : String) :
    (channelParamsOfLinear fl lin).lookup name =
      (lin.lookup name).map (extractParams fl) := by
  unfold channelParamsOfLinear
  induction lin with
  | nil => rfl
  | cons a tl ih =>
    simp only [List.map_cons, List.lookup]
    cases h : name == a.1 with
    | true => rfl
    | false => exact ih

theorem getD_map_of_lt (l : List ℚ) (f : ℚ → ℚ) (i : ℕ) (h : i < l.length) :
    (l.map f).getD i 0 = f l[i] := by
  rw [getD_of_lt _ _ _ (by simpa using h), List.getElem_map]

theorem foldl_max_map_mul {g : ℚ} (hg : 0 ≤ g) (l : List ℚ) (a : ℚ) :
    (l.map (fun x => x * g)).foldl max (a * g) = (l.foldl max a) * g := by
  induction l generalizing a with
  | nil => rfl
  | cons x xs ih =>
    simp only [List.map_cons, List.foldl]
    rw [← max_mul_of_nonneg _ _ hg, ih]

theorem listMax_map_mul {g : ℚ} (hg : 0 ≤ g) (l : List ℚ) :
    listMax (l.map (fun x => x * g)) = listMax l * g := by
  cases l with
  | nil => simp [listMax]
  | cons x xs => exact foldl_max_map_mul hg xs x

theorem extractParams_max_amplitude (fl : ℚ) (d : FreqChannelLin) :
    (extractParams fl d).max_amplitude = listMax d.amplitude * 2 := rfl

/-- Claim C5 amended: update_params merges the new keys, drops all three
Tier-1 cache entries, and leaves the Tier-0 precomputed store, the
channels, and the Tier-0 read values untouched; the next reads compute
fresh values from the merged parameters.  After a pure gain change with
both gains positive and distinct, the freshly computed linear response
and channel parameters differ from the pre-update computations provided
the crop window holds a strictly positive smoothed value (on an all-zero
signal they coincide, so the blanket claim is amended). -/
theorem C5_update_invalidation (P : Processor) (q : ParamsUpdate) :
    (updateParams P q).cache = Cache.empty ∧
    (updateParams P q).precomputed = P.precomputed ∧
    (updateParams P q).channels = P.channels ∧
    (updateParams P q).params = mergeParams P.params q ∧
    smoothedDataValue (updateParams P q) = smoothedDataValue P ∧
    rawExtremumsValue (updateParams P q) = rawExtremumsValue P ∧
    croppedDataValue (updateParams P q) =
      computeCroppedData P.channels (mergeParams P.params q) ∧
    channelParametersValue (updateParams P q) =
      computeChannelParameters P.channels (mergeParams P.params q) ∧
    (∀ g1 g2 : ℚ, P.params.gain = some g1 → q = gainOnly g2 → 0 < g1 → 0 < g2 → g1 ≠ g2 →
      ∀ name rec i, (computeCroppedData P.channels P.params).lookup name = some rec →
        i < rec.smoothed.length → 0 < rec.smoothed.getD i 0 →
        (computeFreqLinear P.channels (mergeParams P.params q) ≠
          computeFreqLinear P.channels P.params) ∧
        (freqStageOk (computeCroppedData P.channels P.params) = true →
          computeChannelParameters P.channels (mergeParams P.params q) ≠
            computeChannelParameters P.channels P.params)) := by
  refine ⟨rfl, rfl, rfl, rfl, rfl, rfl, rfl, rfl, ?_⟩
  intro g1 g2 hg1 hq h1 h2 hne name rec i hlook hi hs
  subst hq
  have hcrop : computeCroppedData P.channels (mergeParams P.params (gainOnly g2)) =
      computeCroppedData P.channels P.params := rfl
  rw [getD_of_lt _ _ _ hi] at hs
  have hga : (derive (mergeParams P.params (gainOnly g2))).gain = g2 := rfl
  have hgb : (derive P.params).gain = g1 := by
    show P.params.gain.getD 7 = g1
    rw [hg1]
    rfl
  constructor
  · intro heq
    unfold computeFreqLinear at heq
    rw [hcrop] at heq
    have h3 : (linPart (computeCroppedData P.channels P.params)
          (derive (mergeParams P.params (gainOnly g2)))).lookup name =
        (linPart (computeCroppedData P.channels P.params) (derive P.params)).lookup name := by
      rw [heq]
    rw [lookup_linPart, lookup_linPart, hlook] at h3
    simp only [Option.map_some'] at h3
    have h4 := Option.some.inj h3
    have h5 := congrArg FreqChannelLin.amplitude h4
    simp only [] at h5
    rw [hga, hgb] at h5
    have h6 : (rec.smoothed.map (fun x => x * g2)).getD i 0 =
        (rec.smoothed.map (fun x => x * g1)).getD i 0 := by rw [h5]
    rw [getD_map_of_lt _ _ _ hi, getD_map_of_lt _ _ _ hi] at h6
    exact hne (mul_left_cancel₀ (ne_of_gt hs) h6).symm
  · intro hok heq
    have e1 : computeChannelParameters P.channels (mergeParams P.params (gainOnly g2)) =
        some (channelParamsOfLinear (derive P.params).fixedlevel
          (computeFreqLinear P.channels (mergeParams P.params (gainOnly g2)))) := by
      unfold computeChannelParameters
      rw [hcrop]
      simp only [hok, if_true]
      rfl
    have e2 : computeChannelParameters P.channels P.params =
        some (channelParamsOfLinear (derive P.params).fixedlevel
          (computeFreqLinear P.channels P.params)) := by
      unfold computeChannelParameters
      simp only [hok, if_true]
    rw [e1, e2] at heq
    have h4 := Option.some.inj heq
    have h5 : (channelParamsOfLinear (derive P.params).fixedlevel
          (computeFreqLinear P.channels (mergeParams P.params (gainOnly g2)))).lookup name =
        (channelParamsOfLinear (derive P.params).fixedlevel
          (computeFreqLinear P.channels P.params)).lookup name := by
      rw [h4]
    rw [lookup_channelParams, lookup_channelParams] at h5
    unfold computeFreqLinear at h5
    rw [hcrop] at h5
    rw [lookup_linPart, lookup_linPart, hlook] at h5
    simp only [Option.map_some'] at h5
    have h6 := Option.some.inj h5
    have h7 := congrArg ChannelParams.max_amplitude h6
    rw [extractParams_max_amplitude, extractParams_max_amplitude] at h7
    simp only [] at h7
    rw [hga, hgb] at h7
    rw [listMax_map_mul (le_of_lt h2), listMax_map_mul (le_of_lt h1)] at h7
    have hM : 0 < listMax rec.smoothed :=
      lt_of_lt_of_le hs (le_listMax (List.getElem_mem hi))
    have h8 := mul_right_cancel₀ (two_ne_zero) h7
    exact hne (mul_left_cancel₀ (ne_of_gt hM)
      (by rw [mul_comm (listMax rec.smoothed) g2, mul_comm (listMax rec.smoothed) g1] at h8 ⊢
          exact h8)).symm

/-- A nondegenerate processor for the C5 witness: gain 1, one channel
with cropped smoothed value 2. -/
def P5w : Processor :=
  { channels := [("ch", { time := [0, 1], amplitude := [1, 2] })]
    params := ⟨none, none, none, none, none, some 1, "ch"⟩
    cache := Cache.empty
    precomputed := Precomputed.empty }

unseal Rat.sub Rat.mul Rat.inv Rat.add in
/-- Witness for the amended C5 theorem: updating the gain from 1 to 2 on
P5w changes both the recomputed linear response and the recomputed
channel parameters. -/
theorem C5_update_invalidation_witness :
    P5w.params.gain = some 1 ∧
    (computeCroppedData P5w.channels P5w.params).lookup "ch" =
      some (⟨[1], [2], [2], [2]⟩ : SmoothedRecord) ∧
    freqStageOk (computeCroppedData P5w.channels P5w.params) = true ∧
    (computeFreqLinear P5w.channels (mergeParams P5w.params (gainOnly 2)) ≠
      computeFreqLinear P5w.channels P5w.params) ∧
    (computeChannelParameters P5w.channels (mergeParams P5w.params (gainOnly 2)) ≠
      computeChannelParameters P5w.channels P5w.params) := by
  have h := ((C5_update_invalidation P5w (gainOnly 2)).2.2.2.2.2.2.2.2) 1 2 rfl rfl
    (by decide) (by decide) (by decide) "ch" (⟨[1], [2], [2], [2]⟩ : SmoothedRecord) 0
    (by decide) (by decide) (by decide)
  exact ⟨rfl, by decide, by decide, h.1, h.2 (by decide)⟩

/-- The all-zero channel of the C5 counterexample. -/
def ch5z : List (String × Channel) := [("chz", { time := [0, 1], amplitude := [0, 0] })]

/-- Parameters of the C5 counterexample: gain 1. -/
def p5z : ParamsDict := ⟨none, none, none, none, none, some 1, "chz"⟩

/-- Processor of the C5 counterexample. -/
def P5z : Processor := ⟨ch5z, p5z, Cache.empty, Precomputed.empty⟩

unseal Rat.sub Rat.mul Rat.inv Rat.add in
/-- Claim C5 is false as stated: on an all-zero channel, updating the
gain from 1 to 2 leaves channel_parameters and freqresponse_linear (raw
and rounded) with exactly their pre-update values, although the gains
differ; only the amended claim with a nonzero-signal hypothesis holds. -/
theorem C5_counterexample :
    (derive (updateParams P5z (gainOnly 2)).params).gain ≠ (derive P5z.params).gain ∧
    channelParametersValue (updateParams P5z (gainOnly 2)) = channelParametersValue P5z ∧
    freqLinearValue (updateParams P5z (gainOnly 2)) = freqLinearValue P5z ∧
    channelParametersProp (updateParams P5z (gainOnly 2)) = channelParametersProp P5z ∧
    freqresponseLinearProp (updateParams P5z (gainOnly 2)) = freqresponseLinearProp P5z ∧
    smoothedDataValue (updateParams P5z (gainOnly 2)) = smoothedDataValue P5z ∧
    rawExtremumsValue (updateParams P5z (gainOnly 2)) = rawExtremumsValue P5z := by
  refine ⟨by decide, by decide, by decide, by decide, by decide, by decide, by decide⟩

end Signals
